import Mathlib

/-
Verification development for the gemma-function-calling SDK.

Shallow embedding of the function-calling runtime:
  * `PyVal` models the dynamic Python values flowing through the SDK
    (JSON-style data).  Non-integral JSON numbers are kept as their
    lexeme (`VNum`); no floating-point arithmetic is performed on them.
  * The dispatcher (`execute_function`), registry (`dictInsert` based),
    conversation store, schema normalizer (`convert_openapi_to_gemma`)
    and the ReAct loop (`reactRun`) are translated from
    `gemma_function_sdk/sdk_definition/*.py`,
    `gemma_function_sdk/runtime/*.py` and
    `gemma_function_sdk/api_converter/api_converter.py`.
  * A bound host implementation is modelled as a total function
    `List (String × PyVal) → Except String PyVal`; a Python exception
    raised by the implementation (including a TypeError from keyword
    unpacking) is the `Except.error` case.
-/

/-- Dynamic Python/JSON value. `VNum` keeps the lexeme of a non-integral
JSON number; the development never computes with floats. -/
inductive PyVal where
  | VNone : PyVal
  | VBool : Bool → PyVal
  | VInt : Int → PyVal
  | VNum : String → PyVal
  | VStr : String → PyVal
  | VList : List PyVal → PyVal
  | VDict : List (String × PyVal) → PyVal

/-- `python None` test on the stored result value. -/
def isVNone : PyVal → Bool
  | .VNone => true
  | _ => false

/-- Python mapping test (what `Dict[str, Any]` validation and `**`
unpacking accept in this value model). -/
def isVDict : PyVal → Bool
  | .VDict _ => true
  | _ => false

/-- Python dict assignment `d[k] = v`: replace in place if the key is
present, else append.  Models insertion-ordered `dict` semantics on an
association list. -/
def dictInsert {α : Type} (d : List (String × α)) (k : String) (v : α) :
    List (String × α) :=
  if d.any (fun p => p.1 == k) then
    d.map (fun p => if p.1 == k then (k, v) else p)
  else
    d ++ [(k, v)]

/-- Python `d.get(k)`. -/
def dictLookup {α : Type} (d : List (String × α)) (k : String) : Option α :=
  (d.find? (fun p => p.1 == k)).map Prod.snd

/-- Number of entries stored under key `k` (1 for a genuine dict). -/
def countKey {α : Type} (d : List (String × α)) (k : String) : Nat :=
  (d.filter (fun p => p.1 == k)).length

/-- `sdk_definition/function_definition.py`, class `FunctionDefinition`.
The pydantic model: name, description, parameters (a JSON object),
`supports_images`, and an optional bound implementation. -/
structure FunctionDefinition where
  name : String
  description : String
  parameters : PyVal
  supports_images : Bool
  implementation : Option (List (String × PyVal) → Except String PyVal)

/-- `FunctionRegistry.functions`: a name-keyed Python dict. -/
abbrev FunctionRegistry := List (String × FunctionDefinition)

/-- `FunctionRegistry.register`: `self.functions[function_def.name] = function_def`. -/
def registryRegister (reg : FunctionRegistry) (fd : FunctionDefinition) :
    FunctionRegistry :=
  dictInsert reg fd.name fd

/-- `FunctionRegistry.get`: `self.functions.get(name)`. -/
def registryGet (reg : FunctionRegistry) (name : String) :
    Option FunctionDefinition :=
  dictLookup reg name

/-- `sdk_definition/function_definition.py`, class `FunctionCallResult`.
`result` is always stored (Python `None` is `PyVal.VNone`); `error` is
`None` on success. -/
structure FunctionCallResult where
  function_name : String
  parameters : PyVal
  result : PyVal
  error : Option String

/-- `FunctionCallResult.is_success`: `self.error is None`. -/
def FunctionCallResult.is_success (r : FunctionCallResult) : Bool :=
  r.error.isNone

/-- `FunctionDefinition.__call__`: raises
`ValueError("No implementation provided for function '<name>'")` when
unbound, else calls the implementation. -/
def FunctionDefinition.callDef (fd : FunctionDefinition)
    (kwargs : List (String × PyVal)) : Except String PyVal :=
  match fd.implementation with
  | none => .error ("No implementation provided for function '" ++ fd.name ++ "'")
  | some impl => impl kwargs

/-- Models the CPython TypeError text raised by `f(**x)` when `x` is not
a mapping.  Its exact wording is irrelevant to every claim. -/
def starStarError : String := "argument after ** must be a mapping"

/-- Models the pydantic ValidationError message raised when
`FunctionCallResult(...)` is constructed with a non-mapping
`parameters` value (`parameters: Dict[str, Any]` is validated on
construction — `pydantic>=2.0.0` is pinned in setup.py).  Its exact
wording is irrelevant to every claim. -/
def validationError : String := "validation error for FunctionCallResult"

/-- Pydantic construction `FunctionCallResult(function_name=...,
parameters=..., result=..., error=...)`: validation of the
`parameters: Dict[str, Any]` field raises (`Except.error`) on a
non-mapping value and succeeds otherwise.  (Keys are strings by
construction in this value model; `function_name: str`, `result: Any`
and `error: Optional[str]` always validate.) -/
def mkFunctionCallResult (function_name : String) (parameters : PyVal)
    (result : PyVal) (error : Option String) :
    Except String FunctionCallResult :=
  match parameters with
  | .VDict _ => .ok { function_name := function_name, parameters := parameters
                    , result := result, error := error }
  | _ => .error validationError

/-- `function_def(**parameters)` as evaluated inside the `try` block of
`GemmaSDK.execute_function`: keyword unpacking of a non-mapping raises a
TypeError, which the `except` captures like any other exception. -/
def callWithKwargs (fd : FunctionDefinition) (params : PyVal) :
    Except String PyVal :=
  match params with
  | .VDict kwargs => fd.callDef kwargs
  | _ => .error starStarError

/-- `sdk_definition/gemma_sdk.py`, `GemmaSDK.execute_function` (lines
146-184): look the name up; when absent, construct and return a
not-found result; else invoke the binding inside `try`/`except`, folding
a raised condition into the `error` field of the constructed result.
Every `FunctionCallResult` construction goes through pydantic
validation, so with a non-mapping `parameters` value the function
*raises* (`Except.error`) on every branch: directly in the not-found
branch, and — after the `except` caught the TypeError from `**`
unpacking — from the construction inside the `except` block, which is
not itself guarded. -/
def execute_function (reg : FunctionRegistry) (name : String)
    (params : PyVal) : Except String FunctionCallResult :=
  match registryGet reg name with
  | none =>
      mkFunctionCallResult name params .VNone
        (some ("Function '" ++ name ++ "' not found"))
  | some fd =>
      match callWithKwargs fd params with
      | .ok v => mkFunctionCallResult name params v none
      | .error e => mkFunctionCallResult name params .VNone (some e)

/-- `runtime/conversation.py`, dataclass `Message`.  The timestamp
default (`datetime.now().isoformat()`) is supplied explicitly by the
operations that construct messages. -/
structure Message where
  role : String
  content : String
  function_call : Option PyVal
  function_result : Option PyVal
  timestamp : String

/-- `runtime/conversation.py`, class `Conversation` (system prompt plus
ordered message list). -/
structure Conversation where
  system_prompt : String
  messages : List Message

/-- The fixed default persona text of `Conversation.__init__`. -/
def defaultSystemPrompt : String := "You are a helpful AI assistant."

/-- `Conversation.__init__`: `self.system_prompt = system_prompt or
"You are a helpful AI assistant."` — Python truthiness, so both `None`
and the empty string fall back to the default. -/
def mkConversation (system_prompt : Option String) : Conversation :=
  { system_prompt :=
      match system_prompt with
      | none => defaultSystemPrompt
      | some s => if s = "" then defaultSystemPrompt else s
  , messages := [] }

/-- `Conversation.add_user_message` (timestamp passed explicitly). -/
def addUserMessage (c : Conversation) (content now : String) : Conversation :=
  { c with messages := c.messages ++
      [{ role := "user", content := content, function_call := none
       , function_result := none, timestamp := now }] }

/-- `Conversation.add_assistant_message`. -/
def addAssistantMessage (c : Conversation) (content : String)
    (function_call : Option PyVal) (now : String) : Conversation :=
  { c with messages := c.messages ++
      [{ role := "assistant", content := content
       , function_call := function_call
       , function_result := none, timestamp := now }] }

/-- One persisted message of the portable record
`{role, content, function_call?, function_result?, timestamp}`;
`role` and `content` are mandatory (`from_dict` indexes them directly). -/
structure MessageRecord where
  role : String
  content : String
  function_call : Option PyVal
  function_result : Option PyVal
  timestamp : Option String

/-- The portable record produced by `Conversation.to_dict`.  A record
with the `messages` key absent is folded into the empty list, matching
`data.get("messages", [])`. -/
structure ConversationRecord where
  system_prompt : Option String
  messages : List MessageRecord

/-- `Conversation.to_dict` (lines 121-131): `vars(message)` keeps all
five fields. -/
def Conversation.to_dict (c : Conversation) : ConversationRecord :=
  { system_prompt := some c.system_prompt
  , messages := c.messages.map (fun m =>
      { role := m.role, content := m.content
      , function_call := m.function_call
      , function_result := m.function_result
      , timestamp := some m.timestamp }) }

/-- `Conversation.from_dict` (lines 142-165): rebuild through
`Conversation.__init__` (hence the truthiness default on the system
text) and re-append every message; a missing timestamp gets
`datetime.now().isoformat()`, passed here as `now`. -/
def Conversation.from_dict (now : String) (d : ConversationRecord) :
    Conversation :=
  let c := mkConversation d.system_prompt
  { c with messages := d.messages.map (fun md =>
      { role := md.role, content := md.content
      , function_call := md.function_call
      , function_result := md.function_result
      , timestamp := md.timestamp.getD now }) }

/-- `ConversationManager.conversations`: id-keyed dict. -/
abbrev ConversationManager := List (String × Conversation)

/-- `ConversationManager.create_conversation` (lines 195-208): build a
`Conversation(system_prompt)` and store it under the id. -/
def create_conversation (m : ConversationManager) (conversation_id : String)
    (system_prompt : Option String) : ConversationManager × Conversation :=
  let c := mkConversation system_prompt
  (dictInsert m conversation_id c, c)

/-
Schema normalizer: `api_converter/api_converter.py`, class
`OpenAPIConverter`.  The input document is modelled structurally:
  * `OAItems`    — the `items` sub-dict of an array parameter;
  * `OAProp`     — one property of a JSON body schema;
  * `OASchemaDoc`— a body schema (`properties` / `required` keys optional);
  * `OAParamDoc` — one declared path/query parameter
                   (`required` truthiness folded to Bool);
  * `OAOperation`— one operation; `parameters` models
                   `operation.get("parameters", [])` with the absent key
                   folded into `[]`; `requestBody = some sch` models a
                   request body carrying an `application/json` schema
                   (an absent body, or one without JSON content, is
                   `none`; a JSON content without a `schema` key is the
                   schema with both keys absent);
  * `OASpecDoc`  — `paths`: path → (method → operation).
-/

structure OAItems where
  type : Option String

structure OAProp where
  type : Option String
  description : Option String
  enum : Option (List PyVal)
  items : Option OAItems

structure OASchemaDoc where
  properties : Option (List (String × OAProp))
  required : Option (List String)

structure OAParamDoc where
  name : String
  type : Option String
  description : Option String
  enum : Option (List PyVal)
  items : Option OAItems
  required : Bool

structure OAOperation where
  operationId : Option String
  summary : Option String
  description : Option String
  parameters : List OAParamDoc
  requestBody : Option OASchemaDoc

structure OASpecDoc where
  paths : List (String × List (String × OAOperation))

/-- One converted Gemma parameter property; `items = some t` stands for
the sub-dict `{"type": t}`. -/
structure GemmaProp where
  type : String
  description : Option String
  enum : Option (List PyVal)
  items : Option String

/-- The `parameters` object of a canonical function schema. -/
structure GemmaParams where
  type : String
  properties : List (String × GemmaProp)
  required : List String

/-- One canonical Gemma function definition (wire form). -/
structure GemmaFunction where
  name : String
  description : String
  parameters : GemmaParams

/-- `OpenAPIConverter.type_mapping`: identity on these six names. -/
def allowedTypes : List String :=
  ["string", "integer", "number", "boolean", "array", "object"]

/-- Python whitespace class (`\s` over ASCII / `str.strip`). -/
def isPySpace (c : Char) : Bool :=
  c == ' ' || c == '\t' || c == '\n' || c == '\r' || c == '\x0b' || c == '\x0c'

/-- Python `str.strip()`. -/
def pyStrip (l : List Char) : List Char :=
  ((l.dropWhile isPySpace).reverse.dropWhile isPySpace).reverse

/-- `re.sub(r"<[^>]+>", "", d)`: delete every maximal `<`…`>` group that
holds at least one non-`>` character; a `<` with no such closing `>` is
kept.  `go` emits one character (or one deleted tag) per step. -/
def stripTags (l : List Char) : List Char :=
  go l.length l
where
  /-- fuel-driven scan; fuel `= l.length` always suffices because every
  step consumes at least one character. -/
  go : Nat → List Char → List Char
  | 0, rest => rest
  | _ + 1, [] => []
  | fuel + 1, c :: rest =>
    if c == '<' then
      match rest with
      | [] => ['<']
      | d :: _ =>
        if d == '>' then '<' :: go fuel rest
        else
          match splitAtGt rest with
          | some rest2 => go fuel rest2
          | none => '<' :: go fuel rest
    else c :: go fuel rest
  /-- drop through the first `>`; `none` when there is no `>`. -/
  splitAtGt : List Char → Option (List Char)
  | [] => none
  | c :: rest => if c == '>' then some rest else splitAtGt rest

/-- `re.sub(r"\s+", " ", d)`: collapse every whitespace run to one space. -/
def collapseWs (l : List Char) : List Char :=
  go l.length l
where
  go : Nat → List Char → List Char
  | 0, rest => rest
  | _ + 1, [] => []
  | fuel + 1, c :: rest =>
    if isPySpace c then ' ' :: go fuel (rest.dropWhile isPySpace)
    else c :: go fuel rest

/-- `OpenAPIConverter._clean_description` (lines 117-136). -/
def cleanDescription (description : String) : String :=
  if description = "" then ""
  else String.mk (pyStrip (collapseWs (stripTags description.data)))

/-- `OpenAPIConverter._convert_parameter` (lines 138-171). -/
def convertParameter (p : OAParamDoc) : GemmaProp :=
  let t0 := p.type.getD "string"
  let t := if allowedTypes.contains t0 then t0 else "string"
  { type := t
  , description := p.description.map cleanDescription
  , enum := p.enum
  , items :=
      if t == "array" then
        match p.items with
        | some it =>
            let it_t := it.type.getD "string"
            if allowedTypes.contains it_t then some it_t else none
        | none => none
      else none }

/-- The inline property conversion of
`OpenAPIConverter._convert_schema_to_parameters` (lines 187-211), which
repeats the `_convert_parameter` logic for body-schema properties. -/
def convertPropSchema (p : OAProp) : GemmaProp :=
  let t0 := p.type.getD "string"
  let t := if allowedTypes.contains t0 then t0 else "string"
  { type := t
  , description := p.description.map cleanDescription
  , enum := p.enum
  , items :=
      if t == "array" then
        match p.items with
        | some it =>
            let it_t := it.type.getD "string"
            if allowedTypes.contains it_t then some it_t else none
        | none => none
      else none }

/-- `OpenAPIConverter._convert_schema_to_parameters` (lines 173-221):
properties converted one by one into a dict; `required` copied through
verbatim (`schema["required"]` when present, else `[]`). -/
def convert_schema_to_parameters (schema : OASchemaDoc) : GemmaParams :=
  { type := "object"
  , properties :=
      (schema.properties.getD []).foldl
        (fun acc pr => dictInsert acc pr.1 (convertPropSchema pr.2)) []
  , required := schema.required.getD [] }

/-- Methods processed by `_convert_openapi_to_gemma`. -/
def httpMethods : List String := ["get", "post", "put", "delete", "patch"]

/-- Derived function name when `operationId` is missing or empty:
`f"{method}_{'_'.join(path_parts)}".replace("-", "_").lower()` with the
empty and `{`-leading path segments dropped. -/
def genFunctionName (method path : String) : String :=
  let path_parts := (path.splitOn "/").filter
    (fun p => !(p == "") && !(p.startsWith "\x7b"))
  let function_name := method ++ "_" ++ String.intercalate "_" path_parts
  (function_name.replace "-" "_").toLower

/-- The path/query-parameter dict built by the first loop of
`_convert_openapi_to_gemma` (lines 262-267). -/
def operationProps0 (op : OAOperation) : List (String × GemmaProp) :=
  op.parameters.foldl
    (fun acc p => dictInsert acc p.name (convertParameter p)) []

/-- The required names collected by that same loop (declaration order). -/
def operationReq0 (op : OAOperation) : List String :=
  (op.parameters.filter (fun p => p.required)).map (fun p => p.name)

/-- Lines 269-288: merge the body-schema properties into the parameter
dict (`parameters.update(...)`) and extend the required list. -/
def operationParams (op : OAOperation) : GemmaParams :=
  match op.requestBody with
  | some schema =>
      let bp := convert_schema_to_parameters schema
      { type := "object"
      , properties :=
          bp.properties.foldl (fun acc pr => dictInsert acc pr.1 pr.2)
            (operationProps0 op)
      , required := operationReq0 op ++ bp.required }
  | none =>
      { type := "object", properties := operationProps0 op
      , required := operationReq0 op }

/-- Conversion of one operation (name, description, parameters). -/
def convertOperation (path method : String) (op : OAOperation) :
    GemmaFunction :=
  let function_name :=
    match op.operationId with
    | some s => if s = "" then genFunctionName method path else s
    | none => genFunctionName method path
  let d1 := cleanDescription (op.summary.getD "")
  let d2 :=
    if d1 = "" then
      match op.description with
      | some d => cleanDescription d
      | none => d1
    else d1
  let description := if d2 = "" then method.toUpper ++ " " ++ path else d2
  { name := function_name, description := description
  , parameters := operationParams op }

/-- `OpenAPIConverter._convert_openapi_to_gemma` (lines 223-293). -/
def convert_openapi_to_gemma (spec : OASpecDoc) : List GemmaFunction :=
  spec.paths.flatMap (fun pp =>
    pp.2.filterMap (fun mop =>
      if httpMethods.contains mop.1 then
        some (convertOperation pp.1 mop.1 mop.2)
      else none))

/-
Flat-endpoint style: `api_converter.py`, `RESTConverter.convert`
(lines 296-358), and image-endpoint style:
`image_api_converter.py`, `ImageAPIConverter.convert_image_api`
(lines 19-104).  Both read `{endpoints: [...]}`; the produced parameter
properties are the plain dicts the Python code builds, modelled as
`PyVal` values.
-/

/-- One `{name, type?, description?, enum?, required?}` parameter entry
of a flat/image endpoint (`required` truthiness folded to Bool). -/
structure EndpointParamDoc where
  name : String
  type : Option String
  description : Option String
  enum : Option (List PyVal)
  required : Bool

/-- One endpoint of a flat/image document; `image_processing` models
`endpoint.get("image_processing", False)` truthiness (only the image
converter reads it). -/
structure EndpointDoc where
  name : Option String
  description : Option String
  parameters : List EndpointParamDoc
  image_processing : Bool

/-- A flat/image document: `docs.get("endpoints", [])` with the absent
key folded into `[]`. -/
structure RestDocsDoc where
  endpoints : List EndpointDoc

/-- The `parameters` object of a flat/image schema (property values are
the raw dicts). -/
structure FlatParams where
  type : String
  properties : List (String × PyVal)
  required : List String

/-- One flat/image function definition; `supports_images := false`
models the absent key of the flat-endpoint output (the registration
default), the image converter sets it `True`. -/
structure FlatFunction where
  name : String
  description : String
  parameters : FlatParams
  supports_images : Bool

/-- The `param_def` dict of `RESTConverter.convert` (lines 327-341):
`{"type": ...}` plus description and enum when declared. -/
def restParamDef (p : EndpointParamDoc) : PyVal :=
  .VDict ([("type", .VStr (p.type.getD "string"))] ++
    (match p.description with
     | some d => [("description", .VStr d)]
     | none => []) ++
    (match p.enum with
     | some vs => [("enum", .VList vs)]
     | none => []))

/-- `RESTConverter.convert`: one schema per endpoint; parameters copied
through with type/description/enum as declared, required names appended
for params marked required. -/
def rest_convert (docs : RestDocsDoc) : List FlatFunction :=
  docs.endpoints.map (fun e =>
    { name := e.name.getD ""
    , description := e.description.getD ""
    , parameters :=
        { type := "object"
        , properties :=
            e.parameters.foldl
              (fun acc p => dictInsert acc p.name (restParamDef p)) []
        , required := (e.parameters.filter (fun p => p.required)).map
            (fun p => p.name) }
    , supports_images := false })

/-- The synthesized `image_processing_options` parameter
(image_api_converter.py lines 71-89). -/
def imageProcessingOptions : PyVal :=
  .VDict
    [ ("type", .VStr "object")
    , ("description", .VStr "Options for image processing")
    , ("properties", .VDict
        [ ("resize", .VDict
            [("type", .VStr "boolean"),
             ("description", .VStr "Whether to resize the image")])
        , ("max_size", .VDict
            [("type", .VStr "integer"),
             ("description", .VStr "Maximum size for the image (pixels)")])
        , ("format", .VDict
            [("type", .VStr "string"),
             ("description", .VStr "Output format for the image"),
             ("enum", .VList [.VStr "jpeg", .VStr "png", .VStr "webp"])]) ]) ]

/-- The `param_def` of `convert_image_api` (lines 47-62): an `image`
parameter is rewritten to `{type: string, format: binary}` with a
defaulted description, all others as in the flat converter. -/
def imageParamDef (p : EndpointParamDoc) : PyVal :=
  if p.type.getD "string" == "image" then
    .VDict [("type", .VStr "string"), ("format", .VStr "binary"),
            ("description", .VStr (p.description.getD "Image file or URL"))]
  else restParamDef p

/-- `ImageAPIConverter.convert_image_api`: flat conversion with the
image rewrite, the synthesized `image_processing_options` parameter when
the endpoint is flagged, and `supports_images = True`. -/
def convert_image_api (docs : RestDocsDoc) : List FlatFunction :=
  docs.endpoints.map (fun e =>
    let properties0 :=
      e.parameters.foldl
        (fun acc p => dictInsert acc p.name (imageParamDef p)) []
    { name := e.name.getD ""
    , description := e.description.getD ""
    , parameters :=
        { type := "object"
        , properties :=
            if e.image_processing then
              dictInsert properties0 "image_processing_options"
                imageProcessingOptions
            else properties0
        , required := (e.parameters.filter (fun p => p.required)).map
            (fun p => p.name) }
    , supports_images := true })

/-
ReAct response parsing: `runtime/react_executor.py`,
`ReActExecutor.parse_react_response` (lines 94-140).  The three
`re.search` patterns are implemented directly over character lists.
-/

/-- Leftmost occurrence of `pat`: `some (before, after)` splits the list
around the first match of `pat`. -/
def splitFirstPat (pat : List Char) : List Char → Option (List Char × List Char)
  | [] => if pat.isPrefixOf ([] : List Char) then some ([], []) else none
  | c :: rest =>
      if pat.isPrefixOf (c :: rest) then some ([], (c :: rest).drop pat.length)
      else (splitFirstPat pat rest).map (fun pr => (c :: pr.1, pr.2))

/-- Index of the leftmost occurrence of `pat`. -/
def firstIdx (pat l : List Char) : Option Nat :=
  (splitFirstPat pat l).map (fun pr => pr.1.length)

/-- Whether `pat` occurs in `l`. -/
def containsPat (l pat : List Char) : Bool :=
  (splitFirstPat pat l).isSome

/-- Lazy single-line capture: first index where `pat` matches such that
no newline occurs before it (`.` without DOTALL cannot cross a line);
`some (before, after)` on success. -/
def findNoNL (pat : List Char) : List Char → Option (List Char × List Char)
  | [] => if pat.isPrefixOf ([] : List Char) then some ([], []) else none
  | c :: rest =>
      if pat.isPrefixOf (c :: rest) then some ([], (c :: rest).drop pat.length)
      else if c == '\n' then none
      else (findNoNL pat rest).map (fun pr => (c :: pr.1, pr.2))

/-- The fixed action marker of the `Action:` pattern. -/
def actionLit : List Char := "Action: I should use the tool `".data

/-- The literal between the two capture groups of the action pattern. -/
def actionSep : List Char := "` with input `".data

/-- Completion of the action pattern after the opening literal:
`(.*?)` up to `` ` with input ` ``, then `(.*?)` up to a backtick, both
single-line.  (The lazy groups never need to backtrack past the first
separator occurrence: a failure of the second group means no backtick
before the newline, which rules out any later same-line separator too.) -/
def matchActionTail (t : List Char) : Option (List Char × List Char) :=
  match findNoNL actionSep t with
  | none => none
  | some (x, t1) =>
      match findNoNL ['`'] t1 with
      | none => none
      | some (y, _) => some (x, y)

/-- `re.search` of the action pattern: try each occurrence of the
opening literal from the left; on failure the engine restarts at the
next position. -/
def parseActionCore : List Char → Option (List Char × List Char)
  | [] => none
  | c :: rest =>
      if actionLit.isPrefixOf (c :: rest) then
        match matchActionTail ((c :: rest).drop actionLit.length) with
        | some r => some r
        | none => parseActionCore rest
      else parseActionCore rest

/-
Model of Python `json.loads` on the action-input string: strict JSON
values plus the `NaN` / `Infinity` / `-Infinity` literals that the
default decoder accepts.  Non-integral numbers are kept as their lexeme
(`VNum`).  `\uXXXX` escapes are decoded code-unit-wise (surrogate-pair
combination is not modelled; no claim exercises it).  Recursion is
fuel-driven; every recursive call strictly consumes input, so fuel
`length + 1` is always enough.
-/

/-- JSON inter-token whitespace (`[ \t\n\r]*`). -/
def jsonWsChar (c : Char) : Bool :=
  c == ' ' || c == '\t' || c == '\n' || c == '\r'

/-- Hexadecimal digit value. -/
def hexVal (c : Char) : Option Nat :=
  if c.isDigit then some (c.toNat - 48)
  else if 'a' ≤ c && c ≤ 'f' then some (c.toNat - 87)
  else if 'A' ≤ c && c ≤ 'F' then some (c.toNat - 70)
  else none

/-- JSON string body after the opening quote: returns the decoded
content and the input following the closing quote.  Unescaped control
characters and unknown escapes are rejected (`strict=True`). -/
def parseJString : List Char → Option (List Char × List Char)
  | [] => none
  | c :: rest =>
      if c == '"' then some ([], rest)
      else if c == '\\' then
        match rest with
        | [] => none
        | e :: rest2 =>
            if e == '"' then
              (parseJString rest2).map (fun pr => ('"' :: pr.1, pr.2))
            else if e == '\\' then
              (parseJString rest2).map (fun pr => ('\\' :: pr.1, pr.2))
            else if e == '/' then
              (parseJString rest2).map (fun pr => ('/' :: pr.1, pr.2))
            else if e == 'b' then
              (parseJString rest2).map (fun pr => (Char.ofNat 8 :: pr.1, pr.2))
            else if e == 'f' then
              (parseJString rest2).map (fun pr => (Char.ofNat 12 :: pr.1, pr.2))
            else if e == 'n' then
              (parseJString rest2).map (fun pr => ('\n' :: pr.1, pr.2))
            else if e == 'r' then
              (parseJString rest2).map (fun pr => ('\r' :: pr.1, pr.2))
            else if e == 't' then
              (parseJString rest2).map (fun pr => ('\t' :: pr.1, pr.2))
            else if e == 'u' then
              match rest2 with
              | h1 :: h2 :: h3 :: h4 :: rest3 =>
                  match hexVal h1, hexVal h2, hexVal h3, hexVal h4 with
                  | some a, some b, some d, some e4 =>
                      let code := ((a * 16 + b) * 16 + d) * 16 + e4
                      (parseJString rest3).map
                        (fun pr => (Char.ofNat code :: pr.1, pr.2))
                  | _, _, _, _ => none
              | _ => none
            else none
      else if c.toNat < 32 then none
      else (parseJString rest).map (fun pr => (c :: pr.1, pr.2))

/-- Digit-run value. -/
def digitsVal (l : List Char) : Nat :=
  l.foldl (fun acc c => acc * 10 + (c.toNat - 48)) 0

/-- JSON number per `NUMBER_RE`:
`(-?(?:0|[1-9]\d*))(\.\d+)?([eE][-+]?\d+)?`.  An integral lexeme becomes
`VInt`, any other match keeps its lexeme as `VNum`. -/
def parseJNumber (l : List Char) : Option (PyVal × List Char) :=
  let (neg, l1) :=
    match l with
    | '-' :: rest => (true, rest)
    | _ => (false, l)
  match l1 with
  | [] => none
  | c :: _ =>
      if !c.isDigit then none
      else
        let (intDigits, l2) :=
          if c == '0' then ([c], l1.drop 1)
          else (l1.takeWhile Char.isDigit, l1.dropWhile Char.isDigit)
        let (fracDigits, l3) :=
          match l2 with
          | '.' :: r =>
              let ds := r.takeWhile Char.isDigit
              if ds.isEmpty then ([], l2)
              else ('.' :: ds, r.dropWhile Char.isDigit)
          | _ => ([], l2)
        let (expDigits, l4) :=
          match l3 with
          | e :: r =>
              if e == 'e' || e == 'E' then
                let (sgn, r1) :=
                  match r with
                  | s :: r2 => if s == '+' || s == '-' then ([s], r2) else ([], r)
                  | [] => ([], r)
                let ds := r1.takeWhile Char.isDigit
                if ds.isEmpty then ([], l3)
                else (e :: (sgn ++ ds), r1.dropWhile Char.isDigit)
              else ([], l3)
          | [] => ([], l3)
        if fracDigits.isEmpty && expDigits.isEmpty then
          let v : Int := Int.ofNat (digitsVal intDigits)
          some (.VInt (if neg then -v else v), l2)
        else
          let lexeme := (if neg then ['-'] else []) ++ intDigits ++ fracDigits ++ expDigits
          some (.VNum (String.mk lexeme), l4)

mutual

/-- One JSON value at the current position. -/
def parseJValue : Nat → List Char → Option (PyVal × List Char)
  | 0, _ => none
  | fuel + 1, l =>
      match l with
      | '"' :: rest =>
          (parseJString rest).map (fun pr => (.VStr (String.mk pr.1), pr.2))
      | '\x7b' :: rest =>
          let r := rest.dropWhile jsonWsChar
          (match r with
           | '\x7d' :: rest2 => some (.VDict [], rest2)
           | _ => parseJObjectItems fuel [] r)
      | '[' :: rest =>
          let r := rest.dropWhile jsonWsChar
          (match r with
           | ']' :: rest2 => some (.VList [], rest2)
           | _ => parseJArrayItems fuel [] r)
      | _ =>
          if "true".data.isPrefixOf l then some (.VBool true, l.drop 4)
          else if "false".data.isPrefixOf l then some (.VBool false, l.drop 5)
          else if "null".data.isPrefixOf l then some (.VNone, l.drop 4)
          else if "NaN".data.isPrefixOf l then some (.VNum "NaN", l.drop 3)
          else if "Infinity".data.isPrefixOf l then
            some (.VNum "Infinity", l.drop 8)
          else if "-Infinity".data.isPrefixOf l then
            some (.VNum "-Infinity", l.drop 9)
          else parseJNumber l

/-- Object members from the first key on; duplicate keys overwrite
(`dict` building). -/
def parseJObjectItems : Nat → List (String × PyVal) → List Char →
    Option (PyVal × List Char)
  | 0, _, _ => none
  | fuel + 1, acc, l =>
      match l with
      | '"' :: rest =>
          match parseJString rest with
          | none => none
          | some (key, r1) =>
              match r1.dropWhile jsonWsChar with
              | ':' :: r2 =>
                  match parseJValue fuel (r2.dropWhile jsonWsChar) with
                  | none => none
                  | some (v, r3) =>
                      let acc1 := dictInsert acc (String.mk key) v
                      match r3.dropWhile jsonWsChar with
                      | ',' :: r4 =>
                          parseJObjectItems fuel acc1 (r4.dropWhile jsonWsChar)
                      | '\x7d' :: r4 => some (.VDict acc1, r4)
                      | _ => none
              | _ => none
      | _ => none

/-- Array items from the first item on. -/
def parseJArrayItems : Nat → List PyVal → List Char →
    Option (PyVal × List Char)
  | 0, _, _ => none
  | fuel + 1, acc, l =>
      match parseJValue fuel l with
      | none => none
      | some (v, r1) =>
          let acc1 := acc ++ [v]
          match r1.dropWhile jsonWsChar with
          | ',' :: r2 => parseJArrayItems fuel acc1 (r2.dropWhile jsonWsChar)
          | ']' :: r2 => some (.VList acc1, r2)
          | _ => none

end

/-- `json.loads`: parse one value surrounded by optional whitespace;
any trailing non-whitespace is "Extra data" and fails the whole parse. -/
def jsonLoads (s : String) : Option PyVal :=
  let l := s.data.dropWhile jsonWsChar
  match parseJValue (s.data.length + 1) l with
  | some (v, rest) =>
      if (rest.dropWhile jsonWsChar).isEmpty then some v else none
  | none => none

/-- Python `"…".split(sep)` for a one-character separator: keeps empty
segments. -/
def pySplitOn (sep : Char) : List Char → List (List Char)
  | [] => [[]]
  | c :: rest =>
      let r := pySplitOn sep rest
      if c == sep then [] :: r
      else
        match r with
        | h :: t => (c :: h) :: t
        | [] => [[c]]

/-- The fallback key-value parser (lines 127-133): split on commas,
split each segment on its first colon, strip both sides, build a flat
string-valued dict. -/
def fallbackKV (l : List Char) : List (String × PyVal) :=
  (pySplitOn ',' l).foldl
    (fun acc seg =>
      if seg.contains ':' then
        let key := seg.takeWhile (fun c => !(c == ':'))
        let value := (seg.dropWhile (fun c => !(c == ':'))).drop 1
        dictInsert acc (String.mk (pyStrip key)) (.VStr (String.mk (pyStrip value)))
      else acc)
    []

/-- Lines 122-133: try the structured (JSON) parse of the stripped
action input; on failure fall back to the flat key-value split. -/
def parse_action_input (s : String) : PyVal :=
  match jsonLoads s with
  | some v => v
  | none => .VDict (fallbackKV s.data)

/-- Parsed ReAct response (`result` dict of `parse_react_response`). -/
structure ReasoningStep where
  thought : Option String
  action : Option String
  action_input : Option PyVal
  final_answer : Option String

/-- `Thought:(.*?)(?:Action:|Final Answer:|$)` with DOTALL: capture from
the first `Thought:` to the earliest following `Action:` or
`Final Answer:`; `$` also matches just before one trailing newline. -/
def parseThought (l : List Char) : Option String :=
  (splitFirstPat "Thought:".data l).map (fun pr =>
    let rest := pr.2
    let dollar :=
      match rest.getLast? with
      | some '\n' => rest.length - 1
      | _ => rest.length
    let stop :=
      min dollar (min ((firstIdx "Action:".data rest).getD dollar)
                      ((firstIdx "Final Answer:".data rest).getD dollar))
    String.mk (pyStrip (rest.take stop)))

/-- `Final Answer:(.*?)$` with DOTALL: capture from the first
`Final Answer:` to the end (a single trailing newline is left out by
`$`, and stripped anyway). -/
def parseFinalAnswer (l : List Char) : Option String :=
  (splitFirstPat "Final Answer:".data l).map (fun pr =>
    let rest :=
      match pr.2.getLast? with
      | some '\n' => pr.2.dropLast
      | _ => pr.2
    String.mk (pyStrip rest))

/-- `ReActExecutor.parse_react_response` (lines 94-140). -/
def parse_react_response (response : String) : ReasoningStep :=
  let act := parseActionCore response.data
  { thought := parseThought response.data
  , action := act.map (fun pr => String.mk (pyStrip pr.1))
  , action_input := act.map (fun pr =>
      parse_action_input (String.mk (pyStrip pr.2)))
  , final_answer := parseFinalAnswer response.data }

/-
Reasoning loop: `runtime/react_executor.py`, `ReActExecutor.execute`
(lines 171-223) and `execute_action` (lines 142-169).  The external
model collaborator is abstracted as a script `Nat → String` giving the
newly generated continuation of each turn (the code re-parses only the
new content).  The prompt text itself does not influence control flow
and is not tracked; `conversation_history` is.
-/

/-- Python truthiness of a string held in an `Option` (`None` and `""`
are falsy). -/
def optStrTruthy : Option String → Bool
  | none => false
  | some s => !(s == "")

/-- Mantissa-is-zero test on a stored number lexeme (so `0.0`, `-0.00`,
`0e9` are falsy like the Python floats they denote). -/
def numLexemeIsZero (s : String) : Bool :=
  let mant := s.data.takeWhile (fun c => !(c == 'e' || c == 'E'))
  mant.all (fun c => c == '0' || c == '.' || c == '-' || c == '+')

/-- Python truthiness of a value. -/
def pyTruthy : PyVal → Bool
  | .VNone => false
  | .VBool b => b
  | .VInt n => !(n == 0)
  | .VNum s => !(numLexemeIsZero s)
  | .VStr s => !(s == "")
  | .VList l => !l.isEmpty
  | .VDict d => !d.isEmpty

/-- Python truthiness of an optional value (`None` falsy). -/
def optValTruthy : Option PyVal → Bool
  | none => false
  | some v => pyTruthy v

/-- Python `f"...{x}"` on an optional string: `None` prints as `None`. -/
def strOrNone : Option String → String
  | none => "None"
  | some s => s

/-- Hex digit character. -/
def hexDigitChar (n : Nat) : Char :=
  if n < 10 then Char.ofNat (48 + n) else Char.ofNat (87 + n)

/-- `\uXXXX` escape for a 16-bit code unit. -/
def uEscape (n : Nat) : List Char :=
  ['\\', 'u', hexDigitChar (n / 4096 % 16), hexDigitChar (n / 256 % 16),
   hexDigitChar (n / 16 % 16), hexDigitChar (n % 16)]

/-- `json.dumps` escaping of one character (`ensure_ascii=True`):
everything outside `0x20`-`0x7e` is `\u`-escaped, non-BMP code points as
a surrogate pair. -/
def jsonEscapeChar (c : Char) : List Char :=
  if c == '"' then ['\\', '"']
  else if c == '\\' then ['\\', '\\']
  else if c == '\n' then ['\\', 'n']
  else if c == '\r' then ['\\', 'r']
  else if c == '\t' then ['\\', 't']
  else if c.toNat == 8 then ['\\', 'b']
  else if c.toNat == 12 then ['\\', 'f']
  else if c.toNat < 32 || c.toNat > 126 then
    if c.toNat < 65536 then uEscape c.toNat
    else
      let v := c.toNat - 65536
      uEscape (55296 + v / 1024) ++ uEscape (56320 + v % 1024)
  else [c]

/-- `json.dumps` of a string. -/
def jsonQuote (s : String) : String :=
  String.mk ('"' :: s.data.flatMap jsonEscapeChar ++ ['"'])

mutual

/-- `json.dumps(v)` with the default separators `", "` / `": "`.
A `VNum` lexeme is emitted verbatim (float repr not modelled). -/
def pyJsonDumps : PyVal → String
  | .VNone => "null"
  | .VBool true => "true"
  | .VBool false => "false"
  | .VInt n => toString n
  | .VNum s => s
  | .VStr s => jsonQuote s
  | .VList l => "[" ++ dumpsList l ++ "]"
  | .VDict d => "\x7b" ++ dumpsDict d ++ "\x7d"

def dumpsList : List PyVal → String
  | [] => ""
  | [v] => pyJsonDumps v
  | v :: w :: rest => pyJsonDumps v ++ ", " ++ dumpsList (w :: rest)

def dumpsDict : List (String × PyVal) → String
  | [] => ""
  | [kv] => jsonQuote kv.1 ++ ": " ++ pyJsonDumps kv.2
  | kv :: kw :: rest =>
      jsonQuote kv.1 ++ ": " ++ pyJsonDumps kv.2 ++ ", " ++ dumpsDict (kw :: rest)

end

/-- Indentation prefix of `json.dumps(..., indent=2)`. -/
def pad (level : Nat) : String :=
  String.mk (List.replicate (2 * level) ' ')

mutual

/-- `json.dumps(v, indent=2)` at nesting `level`. -/
def dumpsInd : Nat → PyVal → String
  | _, .VNone => "null"
  | _, .VBool true => "true"
  | _, .VBool false => "false"
  | _, .VInt n => toString n
  | _, .VNum s => s
  | _, .VStr s => jsonQuote s
  | _, .VList [] => "[]"
  | level, .VList (v :: rest) =>
      "[\n" ++ dumpsIndList (level + 1) (v :: rest) ++ "\n" ++ pad level ++ "]"
  | _, .VDict [] => "\x7b\x7d"
  | level, .VDict (kv :: rest) =>
      "\x7b\n" ++ dumpsIndDict (level + 1) (kv :: rest) ++ "\n" ++ pad level ++ "\x7d"

def dumpsIndList : Nat → List PyVal → String
  | _, [] => ""
  | level, [v] => pad level ++ dumpsInd level v
  | level, v :: w :: rest =>
      pad level ++ dumpsInd level v ++ ",\n" ++ dumpsIndList level (w :: rest)

def dumpsIndDict : Nat → List (String × PyVal) → String
  | _, [] => ""
  | level, [kv] => pad level ++ jsonQuote kv.1 ++ ": " ++ dumpsInd level kv.2
  | level, kv :: kw :: rest =>
      pad level ++ jsonQuote kv.1 ++ ": " ++ dumpsInd level kv.2 ++ ",\n" ++
        dumpsIndDict level (kw :: rest)

end

/-- Python `str(x)` for the scalar results that reach it in
`execute_action` (strings, dicts and lists are handled before; a `VNum`
prints its lexeme — float repr not modelled). -/
def pyStr : PyVal → String
  | .VNone => "None"
  | .VBool true => "True"
  | .VBool false => "False"
  | .VInt n => toString n
  | .VNum s => s
  | .VStr s => s
  | v => pyJsonDumps v

/-- `ReActExecutor.execute_action` (lines 142-169): dispatch through
`execute_function` — an exception raised there propagates, since
`execute_action` catches nothing; otherwise an error result (Python
truthiness on the string) becomes `"Error: <error>"`, a string result
passes through, dict/list results are pretty-printed with `indent=2`,
anything else is `str()`-ed. -/
def stringifyResult (result : FunctionCallResult) : String :=
  if optStrTruthy result.error then "Error: " ++ result.error.getD ""
  else
    match result.result with
    | .VStr s => s
    | .VDict d => dumpsInd 0 (.VDict d)
    | .VList l => dumpsInd 0 (.VList l)
    | v => pyStr v

def execute_action (reg : FunctionRegistry) (action : String)
    (action_input : PyVal) : Except String String :=
  match execute_function reg action action_input with
  | .error e => .error e
  | .ok result => .ok (stringifyResult result)

/-- The fixed sentinel returned without a final answer. -/
def sentinel : String :=
  "No final answer was reached after the maximum number of turns."

/-- Outcome of one loop invocation: the returned string, the number of
model turns consumed, and the accumulated `conversation_history`. -/
structure RunResult where
  answer : String
  turns : Nat
  history : List String

/-- The `for turn in range(max_turns)` body of `ReActExecutor.execute`
(lines 185-220), with the remaining budget as fuel.  Each iteration
parses the scripted continuation, records the thought, returns a truthy
final answer, else dispatches a truthy action (appending the action and
observation entries) and loops; with neither, it breaks to the
sentinel.  An exception raised by `execute_action` propagates out of
`execute` uncaught (`Except.error`): the controller then returns
nothing.  (In the source the action entry is appended to the mutable
history before the dispatch; the raised case discards the model's
history, which is unobservable through `execute`.) -/
def reactRun (reg : FunctionRegistry) (script : Nat → String) :
    List String → Nat → Nat → Except String RunResult
  | history, turn, 0 => .ok ⟨sentinel, turn, history⟩
  | history, turn, fuel + 1 =>
      let parsed := parse_react_response (script turn)
      let hist1 := history ++ ["Thought: " ++ strOrNone parsed.thought]
      if optStrTruthy parsed.final_answer then
        .ok ⟨parsed.final_answer.getD "", turn + 1,
             hist1 ++ ["Final Answer: " ++ parsed.final_answer.getD ""]⟩
      else if optStrTruthy parsed.action && optValTruthy parsed.action_input then
        let a := parsed.action.getD ""
        let inp := parsed.action_input.getD .VNone
        let hist2 := hist1 ++
          ["Action: I should use the tool `" ++ a ++ "` with input `" ++
             pyJsonDumps inp ++ "`"]
        match execute_action reg a inp with
        | .error e => .error e
        | .ok obs =>
            reactRun reg script (hist2 ++ ["Observation: " ++ obs]) (turn + 1) fuel
      else .ok ⟨sentinel, turn + 1, hist1⟩

/-- `ReActExecutor.execute(user_query, max_turns)`. -/
def executeReact (reg : FunctionRegistry) (script : Nat → String)
    (max_turns : Nat) : Except String RunResult :=
  reactRun reg script [] 0 max_turns

/-- The `max_turns` default of `ReActExecutor.execute`. -/
def defaultMaxTurns : Nat := 5

/-- Bool form of "this scripted turn parses to a dispatchable action and
no truthy final answer", the condition under which iteration `t`
continues to the next turn. -/
def continuesAt (script : Nat → String) (t : Nat) : Bool :=
  let p := parse_react_response (script t)
  !(optStrTruthy p.final_answer) && optStrTruthy p.action &&
    optValTruthy p.action_input

/-- Bool form of "this scripted turn makes the loop raise": the
dispatch guard passes, but the parsed action input is a truthy
non-mapping, so `execute_function` raises constructing the
`FunctionCallResult`. -/
def turnRaises (script : Nat → String) (t : Nat) : Bool :=
  continuesAt script t &&
    !(isVDict ((parse_react_response (script t)).action_input.getD .VNone))

/-- "At most one of {action-name with arguments, final-answer} populated"
for a parsed step. -/
def atMostOneActionOrFinal (r : ReasoningStep) : Prop :=
  ¬((r.action.isSome ∧ r.action_input.isSome) ∧ r.final_answer.isSome)

/-- Well-formedness of an (optional) request-body schema: its `required`
names all occur among its declared property names. -/
def schemaRequiredOkB (o : Option OASchemaDoc) : Bool :=
  match o with
  | none => true
  | some sch =>
      (sch.required.getD []).all
        (fun r => ((sch.properties.getD []).map Prod.fst).contains r)

/- Concrete instances used by counterexamples and witnesses. -/

/-- A bound implementation that returns Python `None`. -/
def nullBinding : FunctionDefinition :=
  { name := "f", description := "returns None", parameters := .VDict []
  , supports_images := false, implementation := some (fun _ => .ok .VNone) }

def nullReg : FunctionRegistry := registryRegister [] nullBinding

/-- A schema-only binding (no implementation). -/
def schemaOnlyBinding : FunctionDefinition :=
  { name := "f", description := "schema only", parameters := .VDict []
  , supports_images := false, implementation := none }

def schemaOnlyReg : FunctionRegistry := registryRegister [] schemaOnlyBinding

def cF1 : FunctionDefinition :=
  { name := "f", description := "first", parameters := .VDict []
  , supports_images := false, implementation := none }

def cF2 : FunctionDefinition :=
  { name := "f", description := "second", parameters := .VStr "other"
  , supports_images := true, implementation := none }

/-- A document whose body schema requires a name it never declares. -/
def cSpecBad : OASpecDoc :=
  { paths := [("/p", [("post",
      { operationId := some "op", summary := none, description := none
      , parameters := []
      , requestBody := some { properties := some [], required := some ["x"] } })])] }

/-- A well-formed document exercising both parameter sources. -/
def cSpecGood : OASpecDoc :=
  { paths := [("/p", [("post",
      { operationId := some "op2", summary := none, description := none
      , parameters := [{ name := "location", type := some "string"
                       , description := none, enum := none, items := none
                       , required := true }]
      , requestBody := some
          { properties := some [("x", { type := none, description := none
                                      , enum := none, items := none })]
          , required := some ["x"] } })])] }

def cSampleConversation : Conversation :=
  { system_prompt := "sys"
  , messages :=
      [ { role := "user", content := "hi", function_call := none
        , function_result := none, timestamp := "t1" }
      , { role := "function", content := "Function f returned: 3"
        , function_call := none
        , function_result := some (.VDict [("function_name", .VStr "f")])
        , timestamp := "t2" } ] }

/-- A response carrying both an action and a final answer. -/
def cBothResponse : String :=
  "Action: I should use the tool `f` with input `\x7b\x7d`\nFinal Answer: done"

/-- A scripted continuation with an action and a non-empty argument map. -/
def cActScript : String :=
  "Action: I should use the tool `f` with input `\x7b\"a\": \"1\"\x7d`"

/-- A scripted continuation with an action and an empty argument map. -/
def cEmptyActScript : String :=
  "Action: I should use the tool `f` with input `\x7b\x7d`"

/-- A scripted continuation whose action input parses to a truthy
non-mapping (a JSON list). -/
def cListActScript : String :=
  "Action: I should use the tool `f` with input `[1]`"

/-- A concrete flat-endpoint document (the spec's own example). -/
def cFlatDocs : RestDocsDoc :=
  { endpoints :=
      [ { name := some "getWeather", description := some "Get weather"
        , parameters :=
            [ { name := "location", type := some "string"
              , description := none, enum := none, required := true } ]
        , image_processing := false } ] }

/-- A concrete image-endpoint document with a required image parameter
and image processing flagged. -/
def cImageDocs : RestDocsDoc :=
  { endpoints :=
      [ { name := some "classify", description := some "Classify an image"
        , parameters :=
            [ { name := "image", type := some "image"
              , description := none, enum := none, required := true } ]
        , image_processing := true } ] }

/-- The single schema `rest_convert` produces from `cFlatDocs`. -/
def cFlatOut : FlatFunction :=
  { name := "getWeather", description := "Get weather"
  , parameters :=
      { type := "object"
      , properties := [("location", .VDict [("type", .VStr "string")])]
      , required := ["location"] }
  , supports_images := false }

/-- The single schema `convert_image_api` produces from `cImageDocs`. -/
def cImageOut : FlatFunction :=
  { name := "classify", description := "Classify an image"
  , parameters :=
      { type := "object"
      , properties :=
          [ ("image", .VDict [("type", .VStr "string"),
              ("format", .VStr "binary"),
              ("description", .VStr "Image file or URL")])
          , ("image_processing_options", imageProcessingOptions) ]
      , required := ["image"] }
  , supports_images := true }

/- Helper lemmas on the dict model. -/

theorem dictLookup_map_replace {α : Type} (k : String) (v : α) :
    ∀ d : List (String × α), d.any (fun p => p.1 == k) = true →
      dictLookup (d.map (fun p => if p.1 == k then (k, v) else p)) k = some v := by
  intro d
  induction d with
  | nil => intro h; simp at h
  | cons p d ih =>
      intro h
      by_cases hpk : p.1 == k
      · simp [dictLookup, List.find?, hpk]
      · simp only [List.any_cons, Bool.or_eq_true] at h
        rcases h with h | h
        · exact absurd h hpk
        · simpa [dictLookup, List.find?, hpk] using ih h

theorem dictLookup_append_single {α : Type} (k : String) (v : α) :
    ∀ d : List (String × α), d.any (fun p => p.1 == k) = false →
      dictLookup (d ++ [(k, v)]) k = some v := by
  intro d
  induction d with
  | nil => simp [dictLookup, List.find?]
  | cons p d ih =>
      intro h
      simp only [List.any_cons, Bool.or_eq_false_iff] at h
      simpa [dictLookup, List.find?, h.1] using ih h.2

theorem dictLookup_dictInsert_self {α : Type} (d : List (String × α))
    (k : String) (v : α) : dictLookup (dictInsert d k v) k = some v := by
  unfold dictInsert
  by_cases h : d.any (fun p => p.1 == k)
  · rw [if_pos h]; exact dictLookup_map_replace k v d h
  · rw [if_neg h]
    exact dictLookup_append_single k v d (Bool.not_eq_true _ ▸ eq_false_of_ne_true h)

theorem countKey_map_replace {α : Type} (k : String) (v : α) :
    ∀ d : List (String × α),
      countKey (d.map (fun p => if p.1 == k then (k, v) else p)) k = countKey d k := by
  intro d
  induction d with
  | nil => rfl
  | cons p d ih =>
      by_cases hpk : p.1 == k
      · simpa [countKey, List.filter, hpk] using ih
      · simpa [countKey, List.filter, hpk] using ih

theorem countKey_append_single {α : Type} (k : String) (v : α)
    (d : List (String × α)) : countKey (d ++ [(k, v)]) k = countKey d k + 1 := by
  simp [countKey, List.filter_append]

theorem any_key_iff_countKey_pos {α : Type} (k : String) (d : List (String × α)) :
    d.any (fun p => p.1 == k) = true ↔ 0 < countKey d k := by
  induction d with
  | nil => simp [countKey]
  | cons p d ih =>
      by_cases hpk : p.1 == k
      · simp [countKey, List.filter, hpk]
      · simpa [countKey, List.filter, hpk] using ih

theorem countKey_dictInsert_self {α : Type} (d : List (String × α))
    (k : String) (v : α) (hwf : countKey d k ≤ 1) :
    countKey (dictInsert d k v) k = 1 := by
  unfold dictInsert
  by_cases h : d.any (fun p => p.1 == k)
  · rw [if_pos h, countKey_map_replace]
    have := (any_key_iff_countKey_pos k d).mp h
    omega
  · rw [if_neg h, countKey_append_single]
    have : ¬ 0 < countKey d k := fun hp =>
      h ((any_key_iff_countKey_pos k d).mpr hp)
    omega

/-- Claim C5: registering a name `N` twice (with different schemas)
leaves exactly one binding stored under `N`, equal to the second
registration; the prior binding is discarded unconditionally.  The
hypothesis `countKey reg N ≤ 1` is the dict invariant (a key is stored
at most once). -/
theorem claim5_register_overwrite (reg : FunctionRegistry)
    (f1 f2 : FunctionDefinition) (N : String)
    (h1 : f1.name = N) (h2 : f2.name = N) (hwf : countKey reg N ≤ 1) :
    registryGet (registryRegister (registryRegister reg f1) f2) N = some f2 ∧
    countKey (registryRegister (registryRegister reg f1) f2) N = 1 := by
  unfold registryRegister registryGet
  rw [h1, h2]
  have hc1 : countKey (dictInsert reg N f1) N = 1 :=
    countKey_dictInsert_self reg N f1 hwf
  refine ⟨dictLookup_dictInsert_self _ N f2, ?_⟩
  exact countKey_dictInsert_self _ N f2 (by omega)

/-- Witness for C5 at a concrete registry. -/
theorem claim5_witness :
    cF1.name = "f" ∧ cF2.name = "f" ∧ countKey ([] : FunctionRegistry) "f" ≤ 1 ∧
    (registryGet (registryRegister (registryRegister [] cF1) cF2) "f" = some cF2 ∧
     countKey (registryRegister (registryRegister [] cF1) cF2) "f" = 1) :=
  ⟨rfl, rfl, by decide,
   claim5_register_overwrite [] cF1 cF2 "f" rfl rfl (by decide)⟩

/- Dispatcher helper lemmas. -/

theorem isVDict_exists (v : PyVal) (h : isVDict v = true) :
    ∃ kvs, v = .VDict kvs := by
  cases v <;> simp_all [isVDict]

theorem execute_function_dict_ok (reg : FunctionRegistry) (name : String)
    (kwargs : List (String × PyVal)) :
    ∃ r, execute_function reg name (.VDict kwargs) = .ok r ∧
      (r.error = none ∨ r.result = .VNone) := by
  cases hg : registryGet reg name with
  | none =>
      exact ⟨{ function_name := name, parameters := .VDict kwargs
             , result := .VNone
             , error := some ("Function '" ++ name ++ "' not found") },
             by simp [execute_function, hg, mkFunctionCallResult], Or.inr rfl⟩
  | some fd =>
      cases hc : callWithKwargs fd (.VDict kwargs) with
      | ok v =>
          exact ⟨{ function_name := name, parameters := .VDict kwargs
                 , result := v, error := none },
                 by simp [execute_function, hg, hc, mkFunctionCallResult],
                 Or.inl rfl⟩
      | error e =>
          exact ⟨{ function_name := name, parameters := .VDict kwargs
                 , result := .VNone, error := some e },
                 by simp [execute_function, hg, hc, mkFunctionCallResult],
                 Or.inr rfl⟩

theorem execute_function_nondict (reg : FunctionRegistry) (name : String)
    (params : PyVal) (h : isVDict params = false) :
    execute_function reg name params = .error validationError := by
  have hmk : ∀ res err, mkFunctionCallResult name params res err =
      .error validationError := by
    intro res err
    cases params <;> simp_all [isVDict, mkFunctionCallResult]
  cases hg : registryGet reg name with
  | none => simp [execute_function, hg, hmk]
  | some fd =>
      cases hc : callWithKwargs fd params with
      | ok v => simp [execute_function, hg, hc, hmk]
      | error e => simp [execute_function, hg, hc, hmk]

theorem execute_action_dict_ok (reg : FunctionRegistry) (action : String)
    (kwargs : List (String × PyVal)) :
    ∃ obs, execute_action reg action (.VDict kwargs) = .ok obs := by
  obtain ⟨r, hr, _⟩ := execute_function_dict_ok reg action kwargs
  exact ⟨stringifyResult r, by unfold execute_action; rw [hr]⟩

/-- Claim C1 (amended): for every call request whose argument value is a
mapping, `execute_function` returns a `CallResult` exactly once and
never raises; `value` and `error` are never both populated (whenever the
call fails, the stored result is Python `None`), but both may be absent,
when a bound implementation successfully returns `None` — so at most
one, not exactly one, is populated.  For a non-mapping argument value
the dispatcher *raises* (pydantic ValidationError constructing the
`CallResult`) instead of returning, on every branch. -/
theorem claim1_dispatch_contract (reg : FunctionRegistry) (name : String) :
    (∀ kwargs, ∃ r, execute_function reg name (.VDict kwargs) = .ok r ∧
        (r.error = none ∨ r.result = .VNone)) ∧
    (∀ params, isVDict params = false →
        execute_function reg name params = .error validationError) :=
  ⟨fun kwargs => execute_function_dict_ok reg name kwargs,
   fun params h => execute_function_nondict reg name params h⟩

/-- Witness for C1: a concrete mapping dispatch returns, a concrete
non-mapping dispatch raises. -/
theorem claim1_witness :
    (∃ r, execute_function [] "g" (.VDict []) = .ok r ∧
       (r.error = none ∨ r.result = .VNone)) ∧
    (isVDict (.VList [.VInt 1]) = false ∧
     execute_function [] "g" (.VList [.VInt 1]) = .error validationError) :=
  ⟨(claim1_dispatch_contract [] "g").1 [],
   rfl, (claim1_dispatch_contract [] "g").2 (.VList [.VInt 1]) rfl⟩

/-- Counterexample to C1 as stated: (a) with a non-mapping argument
value the dispatch raises a ValidationError instead of returning a
`CallResult` ("never raising … including for malformed argument maps"
fails); (b) a bound implementation returning `None` yields a returned
`CallResult` with `result = None` and `error = None`, so neither of
{value, error} is populated ("exactly one" fails). -/
theorem claim1_counterexample :
    execute_function [] "foo" (.VList [.VInt 1]) = .error validationError ∧
    execute_function nullReg "f" (.VDict []) =
      .ok { function_name := "f", parameters := .VDict [], result := .VNone
          , error := none } :=
  ⟨rfl, rfl⟩

/-- Claim C2 (amended): dispatching an absent name returns exactly
`Function '<name>' not found` with no value; dispatching a present but
unbound binding returns exactly
`No implementation provided for function '<name>'` with no value. -/
theorem claim2_lookup_errors (reg : FunctionRegistry) (name : String)
    (kwargs : List (String × PyVal)) :
    (registryGet reg name = none →
      execute_function reg name (.VDict kwargs) =
        .ok { function_name := name, parameters := .VDict kwargs
            , result := .VNone
            , error := some ("Function '" ++ name ++ "' not found") }) ∧
    (∀ fd, registryGet reg name = some fd → fd.implementation = none →
      execute_function reg name (.VDict kwargs) =
        .ok { function_name := name, parameters := .VDict kwargs
            , result := .VNone
            , error := some ("No implementation provided for function '" ++ fd.name ++ "'") }) := by
  constructor
  · intro h
    simp [execute_function, h, mkFunctionCallResult]
  · intro fd h himpl
    simp [execute_function, h, callWithKwargs, FunctionDefinition.callDef,
      himpl, mkFunctionCallResult]

/-- Witness for C2 covering both branches. -/
theorem claim2_witness :
    execute_function [] "foo" (.VDict []) =
      .ok { function_name := "foo", parameters := .VDict [], result := .VNone
          , error := some ("Function '" ++ "foo" ++ "' not found") } ∧
    execute_function schemaOnlyReg "f" (.VDict []) =
      .ok { function_name := "f", parameters := .VDict [], result := .VNone
          , error := some ("No implementation provided for function '" ++
              schemaOnlyBinding.name ++ "'") } :=
  ⟨(claim2_lookup_errors [] "foo" []).1 rfl,
   (claim2_lookup_errors schemaOnlyReg "f" []).2 schemaOnlyBinding rfl rfl⟩

/-- Counterexample to C2 as stated: a present but unbound binding does
not produce the `not found` message; it produces the
`No implementation provided` message. -/
theorem claim2_counterexample :
    execute_function schemaOnlyReg "f" (.VDict []) =
      .ok { function_name := "f", parameters := .VDict [], result := .VNone
          , error := some "No implementation provided for function 'f'" } ∧
    ¬ execute_function schemaOnlyReg "f" (.VDict []) =
      .ok { function_name := "f", parameters := .VDict [], result := .VNone
          , error := some ("Function '" ++ "f" ++ "' not found") } := by
  constructor
  · rfl
  · intro h
    have he := congrArg FunctionCallResult.error (Except.ok.inj h)
    exact absurd he (by decide)

/-- Claim C10: a Conversation created with no system text, or with an
empty system text, gets the fixed default; a non-empty caller text is
stored verbatim; `ConversationManager.create_conversation` stores and
returns exactly that conversation. -/
theorem claim10_default_system_prompt (sp : Option String)
    (mgr : ConversationManager) (cid : String) :
    ((sp = none ∨ sp = some "") →
      (mkConversation sp).system_prompt = defaultSystemPrompt) ∧
    (∀ s, sp = some s → s ≠ "" → (mkConversation sp).system_prompt = s) ∧
    (create_conversation mgr cid sp).2 = mkConversation sp := by
  refine ⟨?_, ?_, rfl⟩
  · rintro (rfl | rfl) <;> simp [mkConversation]
  · rintro s rfl hs
    simp [mkConversation, hs]

/-- Witness for C10 at concrete system texts. -/
theorem claim10_witness :
    (mkConversation (some "")).system_prompt = defaultSystemPrompt ∧
    (mkConversation (some "hello")).system_prompt = "hello" ∧
    (create_conversation [] "c1" (some "hello")).2 = mkConversation (some "hello") :=
  ⟨(claim10_default_system_prompt (some "") [] "c1").1 (Or.inr rfl),
   (claim10_default_system_prompt (some "hello") [] "c1").2.1 "hello" rfl (by decide),
   (claim10_default_system_prompt (some "hello") [] "c1").2.2⟩

/-- Claim C4: serializing a Conversation (`to_dict`) and deserializing
the record (`from_dict`) reproduces the identical conversation — same
system text, message count, order, roles, contents, structured payloads
and timestamps.  The hypothesis is the constructor invariant: every
conversation built through `Conversation.__init__` has a non-empty
system text (the truthiness fallback guarantees it). -/
theorem claim4_roundtrip (c : Conversation) (now : String)
    (h : c.system_prompt ≠ "") :
    Conversation.from_dict now (Conversation.to_dict c) = c := by
  cases c with
  | mk sp msgs =>
      simp only [Conversation.to_dict, Conversation.from_dict, mkConversation]
      simp only at h
      rw [if_neg h, List.map_map]
      have hid : ((fun md : MessageRecord =>
          { role := md.role, content := md.content
          , function_call := md.function_call
          , function_result := md.function_result
          , timestamp := md.timestamp.getD now : Message }) ∘
          (fun m : Message =>
          { role := m.role, content := m.content
          , function_call := m.function_call
          , function_result := m.function_result
          , timestamp := some m.timestamp : MessageRecord })) = id := by
        funext m
        cases m
        rfl
      rw [hid, List.map_id]

/-- Witness for C4 on a concrete two-message conversation. -/
theorem claim4_witness :
    cSampleConversation.system_prompt ≠ "" ∧
    Conversation.from_dict "tnow" (Conversation.to_dict cSampleConversation) =
      cSampleConversation :=
  ⟨by decide, claim4_roundtrip cSampleConversation "tnow" (by decide)⟩

/- Parser lemmas. -/

theorem parseActionCore_eq_none :
    ∀ l : List Char, containsPat l actionLit = false → parseActionCore l = none := by
  intro l
  induction l with
  | nil => intro _; rfl
  | cons c rest ih =>
      intro h
      unfold containsPat splitFirstPat at h
      by_cases hp : actionLit.isPrefixOf (c :: rest)
      · rw [if_pos hp] at h
        simp at h
      · rw [if_neg hp] at h
        unfold parseActionCore
        rw [if_neg hp]
        apply ih
        unfold containsPat
        cases hs : splitFirstPat actionLit rest with
        | none => rfl
        | some pr => rw [hs] at h; simp at h

theorem parseFinalAnswer_eq_none (l : List Char)
    (h : containsPat l "Final Answer:".data = false) :
    parseFinalAnswer l = none := by
  unfold parseFinalAnswer
  unfold containsPat at h
  cases hs : splitFirstPat "Final Answer:".data l with
  | none => rfl
  | some pr => rw [hs] at h; simp at h

/-- Claim C6 (amended): the parser extracts the action and the final
answer independently; for every response in which at least one of the
two markers is absent, at most one of {action-name with arguments,
final-answer} is populated.  (A response containing both markers
populates both; the loop then gives the final answer priority.) -/
theorem claim6_at_most_one (s : String)
    (h : containsPat s.data actionLit = false ∨
         containsPat s.data "Final Answer:".data = false) :
    atMostOneActionOrFinal (parse_react_response s) := by
  rcases h with h | h
  · have ha := parseActionCore_eq_none s.data h
    intro hc
    rcases hc with ⟨⟨hact, _⟩, _⟩
    rw [parse_react_response] at hact
    simp only [ha, Option.map_none'] at hact
    exact absurd hact (by simp)
  · have hf := parseFinalAnswer_eq_none s.data h
    intro hc
    rcases hc with ⟨_, hfin⟩
    rw [parse_react_response] at hfin
    simp only [hf] at hfin
    exact absurd hfin (by simp)

/-- Witness for C6 on a response with no action marker. -/
theorem claim6_witness :
    containsPat "Final Answer: ok".data actionLit = false ∧
    atMostOneActionOrFinal (parse_react_response "Final Answer: ok") :=
  ⟨rfl, claim6_at_most_one "Final Answer: ok" (Or.inl rfl)⟩

/-- Counterexample to C6 as stated: a response carrying both an action
and a final answer parses with both populated. -/
theorem claim6_counterexample :
    ((parse_react_response cBothResponse).action = some "f" ∧
     (parse_react_response cBothResponse).action_input = some (.VDict []) ∧
     (parse_react_response cBothResponse).final_answer = some "done") ∧
    ¬ atMostOneActionOrFinal (parse_react_response cBothResponse) :=
  ⟨⟨rfl, rfl, rfl⟩, fun h => h ⟨⟨rfl, rfl⟩, rfl⟩⟩

/-- Claim C9: an action payload that fails the structured (JSON) parse
is split on commas and each segment on its first colon, both sides
trimmed, giving a flat string-keyed, string-valued map; in particular
`a:1, b:2` parses to the fallback map `{"a": "1", "b": "2"}`. -/
theorem claim9_fallback :
    (∀ s : String, jsonLoads s = none →
      parse_action_input s = .VDict (fallbackKV s.data)) ∧
    parse_action_input "a:1, b:2" =
      .VDict [("a", .VStr "1"), ("b", .VStr "2")] :=
  ⟨fun s h => by unfold parse_action_input; rw [h], rfl⟩

/-- Witness for C9 at the example payload. -/
theorem claim9_witness :
    jsonLoads "a:1, b:2" = none ∧
    parse_action_input "a:1, b:2" = .VDict (fallbackKV "a:1, b:2".data) :=
  ⟨rfl, claim9_fallback.1 "a:1, b:2" rfl⟩

/- Loop lemmas. -/

theorem reactRun_safe (reg : FunctionRegistry) (script : Nat → String) :
    ∀ (fuel : Nat) (hist : List String) (turn : Nat),
      (∀ t, turn ≤ t → t < turn + fuel → turnRaises script t = false) →
      ∃ res, reactRun reg script hist turn fuel = .ok res ∧
        res.turns ≤ turn + fuel ∧
        ((∀ t, turn ≤ t → t < turn + fuel → continuesAt script t = true) →
          res.answer = sentinel ∧ res.turns = turn + fuel) := by
  intro fuel
  induction fuel with
  | zero =>
      intro hist turn _
      exact ⟨⟨sentinel, turn, hist⟩, rfl, Nat.le_refl _, fun _ => ⟨rfl, rfl⟩⟩
  | succ n ih =>
      intro hist turn hsafe
      rw [reactRun]
      by_cases hfa :
          optStrTruthy (parse_react_response (script turn)).final_answer = true
      · simp only [hfa, if_true]
        refine ⟨_, rfl, ?_, ?_⟩
        · show turn + 1 ≤ turn + (n + 1)
          omega
        · intro hall
          have hc := hall turn (Nat.le_refl turn) (by omega)
          unfold continuesAt at hc
          simp only [Bool.and_eq_true, Bool.not_eq_eq_eq_not, Bool.not_true] at hc
          exact absurd hfa (by simp [hc.1.1])
      · have hfa2 :
            optStrTruthy (parse_react_response (script turn)).final_answer = false :=
          Bool.eq_false_iff.mpr hfa
        by_cases hact : (optStrTruthy (parse_react_response (script turn)).action &&
            optValTruthy (parse_react_response (script turn)).action_input) = true
        · rw [Bool.and_eq_true] at hact
          obtain ⟨ha, hi⟩ := hact
          have hcont : continuesAt script turn = true := by
            simp [continuesAt, hfa2, ha, hi]
          have hr := hsafe turn (Nat.le_refl turn) (by omega)
          unfold turnRaises at hr
          rw [hcont, Bool.true_and] at hr
          have hdict : isVDict
              ((parse_react_response (script turn)).action_input.getD .VNone) = true := by
            revert hr
            cases isVDict ((parse_react_response (script turn)).action_input.getD .VNone) <;>
              simp
          obtain ⟨kvs, hkvs⟩ := isVDict_exists _ hdict
          obtain ⟨obs, hobs⟩ : ∃ obs,
              execute_action reg ((parse_react_response (script turn)).action.getD "")
                ((parse_react_response (script turn)).action_input.getD .VNone) =
                .ok obs := by
            rw [hkvs]
            exact execute_action_dict_ok reg _ kvs
          simp only [hfa2, Bool.false_eq_true, if_false, ha, hi, Bool.and_self,
            if_true, hobs]
          obtain ⟨res, hres, hle, hexh⟩ := ih _ (turn + 1)
            (fun t ht1 ht2 => hsafe t (by omega) (by omega))
          refine ⟨res, hres, by omega, ?_⟩
          intro hall
          have hconc := hexh (fun t ht1 ht2 => hall t (by omega) (by omega))
          exact ⟨hconc.1, by omega⟩
        · have hact2 : (optStrTruthy (parse_react_response (script turn)).action &&
              optValTruthy (parse_react_response (script turn)).action_input) = false :=
            Bool.eq_false_iff.mpr hact
          simp only [hfa2, Bool.false_eq_true, if_false, hact2]
          refine ⟨_, rfl, ?_, ?_⟩
          · show turn + 1 ≤ turn + (n + 1)
            omega
          · intro hall
            have hc := hall turn (Nat.le_refl turn) (by omega)
            unfold continuesAt at hc
            simp only [Bool.and_eq_true, Bool.not_eq_eq_eq_not, Bool.not_true] at hc
            exact absurd (by rw [Bool.and_eq_true]; exact ⟨hc.1.2, hc.2⟩) hact

/-- Claim C7 (amended): for every scripted sequence in which no turn
passes the dispatch guard with a truthy *non-mapping* action input, and
every turn budget `max_turns ≥ 1`, the loop returns a single string
within at most `max_turns` turns (`defaultMaxTurns = 5` when
unspecified); when every turn keeps acting without a final answer (the
budget is reached without one) that string is the fixed sentinel.  A
scripted turn whose parsed action input is truthy but not a mapping
makes the loop *raise* — the dispatcher's pydantic ValidationError
propagates uncaught — rather than return (see the counterexample). -/
theorem claim7_termination (reg : FunctionRegistry) (script : Nat → String)
    (max_turns : Nat) (hpos : 1 ≤ max_turns)
    (hsafe : ∀ t, t < max_turns → turnRaises script t = false) :
    ∃ res, executeReact reg script max_turns = .ok res ∧
      res.turns ≤ max_turns ∧
      ((∀ t, t < max_turns → continuesAt script t = true) →
        res.answer = sentinel ∧ res.turns = max_turns) := by
  have h := reactRun_safe reg script max_turns [] 0
    (fun t _ ht => hsafe t (by omega))
  simpa [executeReact] using h

/-- Witness for C7: budget 1, a script that always acts on a mapping. -/
theorem claim7_witness :
    1 ≤ 1 ∧
    (∀ t, t < 1 → turnRaises (fun _ => cActScript) t = false) ∧
    (∃ res, executeReact [] (fun _ => cActScript) 1 = .ok res ∧
      res.turns ≤ 1 ∧
      ((∀ t, t < 1 → continuesAt (fun _ => cActScript) t = true) →
        res.answer = sentinel ∧ res.turns = 1)) := by
  have hs : ∀ t, t < 1 → turnRaises (fun _ => cActScript) t = false := by
    intro t ht
    have ht0 : t = 0 := Nat.lt_one_iff.mp ht
    subst ht0
    rfl
  exact ⟨Nat.le_refl 1, hs,
    claim7_termination [] (fun _ => cActScript) 1 (Nat.le_refl 1) hs⟩

/-- Counterexample to C7 as stated: a scripted turn whose action input
is the truthy non-mapping `[1]` makes the loop raise the dispatcher's
ValidationError instead of returning a string — with any registry, here
the empty one. -/
theorem claim7_counterexample :
    executeReact [] (fun _ => cListActScript) defaultMaxTurns =
      .error validationError := rfl

/-- Claim C8 (amended): in the Act state — no truthy final answer, a
non-empty action name and a non-empty *mapping* argument value (Python
truthiness of `parsed["action"] and parsed["action_input"]` plus the
mapping shape that lets the dispatch construct its result) — the
controller dispatches the action through `execute_action`, appends the
`Observation: <stringified result-or-error>` entry to the transcript,
and continues to the next turn.  An empty argument map is falsy and
breaks the loop instead (see the counterexample); a truthy non-mapping
argument passes the guard but makes the dispatch raise, so nothing is
appended and the loop does not continue. -/
theorem claim8_act_step (reg : FunctionRegistry) (script : Nat → String)
    (hist : List String) (turn fuel : Nat)
    (h1 : optStrTruthy (parse_react_response (script turn)).final_answer = false)
    (h2 : optStrTruthy (parse_react_response (script turn)).action = true)
    (h3 : optValTruthy (parse_react_response (script turn)).action_input = true)
    (h4 : isVDict ((parse_react_response (script turn)).action_input.getD .VNone) = true) :
    ∃ obs,
      execute_action reg ((parse_react_response (script turn)).action.getD "")
        ((parse_react_response (script turn)).action_input.getD .VNone) = .ok obs ∧
      reactRun reg script hist turn (fuel + 1) =
        reactRun reg script
          (hist ++ ["Thought: " ++ strOrNone (parse_react_response (script turn)).thought] ++
            ["Action: I should use the tool `" ++
               (parse_react_response (script turn)).action.getD "" ++
               "` with input `" ++
               pyJsonDumps ((parse_react_response (script turn)).action_input.getD .VNone) ++ "`"] ++
            ["Observation: " ++ obs])
          (turn + 1) fuel := by
  obtain ⟨kvs, hkvs⟩ := isVDict_exists _ h4
  obtain ⟨obs, hobs⟩ : ∃ obs,
      execute_action reg ((parse_react_response (script turn)).action.getD "")
        ((parse_react_response (script turn)).action_input.getD .VNone) = .ok obs := by
    rw [hkvs]
    exact execute_action_dict_ok reg _ kvs
  refine ⟨obs, hobs, ?_⟩
  rw [reactRun]
  simp only [h1, Bool.false_eq_true, if_false, h2, h3, Bool.and_self, if_true, hobs]

/-- Witness for C8: one acting turn at concrete inputs. -/
theorem claim8_witness :
    optStrTruthy (parse_react_response cActScript).final_answer = false ∧
    optStrTruthy (parse_react_response cActScript).action = true ∧
    optValTruthy (parse_react_response cActScript).action_input = true ∧
    isVDict ((parse_react_response cActScript).action_input.getD .VNone) = true ∧
    (∃ obs,
      execute_action [] ((parse_react_response cActScript).action.getD "")
        ((parse_react_response cActScript).action_input.getD .VNone) = .ok obs ∧
      reactRun [] (fun _ => cActScript) [] 0 1 =
        reactRun [] (fun _ => cActScript)
          ([] ++ ["Thought: " ++ strOrNone (parse_react_response cActScript).thought] ++
            ["Action: I should use the tool `" ++
               (parse_react_response cActScript).action.getD "" ++
               "` with input `" ++
               pyJsonDumps ((parse_react_response cActScript).action_input.getD .VNone) ++ "`"] ++
            ["Observation: " ++ obs])
          1 0) :=
  ⟨rfl, rfl, rfl, rfl,
   claim8_act_step [] (fun _ => cActScript) [] 0 0 rfl rfl rfl rfl⟩

/-- Counterexample to C8 as stated: an action with an *empty* argument
map — both present in the parse — does not dispatch: the truthiness
test fails, no observation is appended, and the loop terminates after
one turn with the sentinel instead of continuing. -/
theorem claim8_counterexample :
    ((parse_react_response cEmptyActScript).action = some "f" ∧
     (parse_react_response cEmptyActScript).action_input = some (.VDict []) ∧
     (parse_react_response cEmptyActScript).final_answer = none) ∧
    executeReact [] (fun _ => cEmptyActScript) defaultMaxTurns =
      .ok { answer := sentinel, turns := 1, history := ["Thought: None"] } :=
  ⟨⟨rfl, rfl, rfl⟩, rfl⟩

/- Key-membership lemmas for the normalizer. -/

theorem mem_keys_dictInsert {α : Type} (d : List (String × α)) (k : String)
    (v : α) (x : String) (hx : x ∈ d.map Prod.fst ∨ x = k) :
    x ∈ (dictInsert d k v).map Prod.fst := by
  unfold dictInsert
  by_cases h : d.any (fun p => p.1 == k)
  · rw [if_pos h]
    rcases hx with hx | rfl
    · obtain ⟨p, hp, rfl⟩ := List.mem_map.mp hx
      by_cases hpk : p.1 == k
      · refine List.mem_map.mpr ⟨(k, v), List.mem_map.mpr ⟨p, hp, by simp [hpk]⟩, ?_⟩
        have := beq_iff_eq.mp hpk
        simp [this]
      · exact List.mem_map.mpr ⟨p, List.mem_map.mpr ⟨p, hp, by simp [hpk]⟩, rfl⟩
    · obtain ⟨p, hp, hpk⟩ := List.any_eq_true.mp h
      exact List.mem_map.mpr ⟨(x, v), List.mem_map.mpr ⟨p, hp, by simp [hpk]⟩, rfl⟩
  · rw [if_neg h]
    rw [List.map_append, List.mem_append]
    rcases hx with hx | rfl
    · exact Or.inl hx
    · exact Or.inr (by simp)

theorem mem_keys_foldInsert {α β : Type} (key : β → String) (val : β → α) :
    ∀ (l : List β) (d : List (String × α)) (x : String),
      (x ∈ d.map Prod.fst ∨ x ∈ l.map key) →
      x ∈ (l.foldl (fun acc b => dictInsert acc (key b) (val b)) d).map Prod.fst := by
  intro l
  induction l with
  | nil =>
      intro d x hx
      rcases hx with hx | hx
      · simpa using hx
      · simp at hx
  | cons b l ih =>
      intro d x hx
      rw [List.foldl_cons]
      apply ih
      rcases hx with hx | hx
      · exact Or.inl (mem_keys_dictInsert d (key b) (val b) x (Or.inl hx))
      · rw [List.map_cons, List.mem_cons] at hx
        rcases hx with rfl | hx
        · exact Or.inl (mem_keys_dictInsert d (key b) (val b) (key b) (Or.inr rfl))
        · exact Or.inr hx

theorem operationReq0_sub (op : OAOperation) (r : String)
    (hr : r ∈ operationReq0 op) : r ∈ (operationProps0 op).map Prod.fst := by
  unfold operationReq0 at hr
  obtain ⟨p, hp, rfl⟩ := List.mem_map.mp hr
  have hpmem : p ∈ op.parameters := List.mem_of_mem_filter hp
  unfold operationProps0
  exact mem_keys_foldInsert OAParamDoc.name convertParameter op.parameters [] _
    (Or.inr (List.mem_map.mpr ⟨p, hpmem, rfl⟩))

theorem operationParams_required_sub (op : OAOperation)
    (hbody : schemaRequiredOkB op.requestBody = true) :
    ∀ r ∈ (operationParams op).required,
      r ∈ (operationParams op).properties.map Prod.fst := by
  intro r hr
  cases hrb : op.requestBody with
  | none =>
      rw [operationParams, hrb] at hr ⊢
      exact operationReq0_sub op r hr
  | some sch =>
      rw [operationParams, hrb] at hr ⊢
      simp only at hr ⊢
      rcases List.mem_append.mp hr with hr | hr
      · exact mem_keys_foldInsert Prod.fst Prod.snd _ _ r
          (Or.inl (operationReq0_sub op r hr))
      · rw [hrb] at hbody
        unfold schemaRequiredOkB at hbody
        have hc := List.all_eq_true.mp hbody r hr
        have hk : r ∈ (sch.properties.getD []).map Prod.fst := by
          have := List.mem_of_elem_eq_true hc
          simpa using this
        have hbp : r ∈ (convert_schema_to_parameters sch).properties.map Prod.fst := by
          rw [convert_schema_to_parameters]
          exact mem_keys_foldInsert Prod.fst
            (fun pr => convertPropSchema pr.2) (sch.properties.getD []) [] r
            (Or.inr hk)
        exact mem_keys_foldInsert Prod.fst Prod.snd
          (convert_schema_to_parameters sch).properties (operationProps0 op) r
          (Or.inr hbp)

theorem openapi_required_sub (spec : OASpecDoc)
    (hwf : ∀ pp ∈ spec.paths, ∀ mop ∈ pp.2,
      schemaRequiredOkB (mop.2).requestBody = true) :
    ∀ f ∈ convert_openapi_to_gemma spec, ∀ r ∈ f.parameters.required,
      r ∈ f.parameters.properties.map Prod.fst := by
  intro f hf
  unfold convert_openapi_to_gemma at hf
  obtain ⟨pp, hpp, hf2⟩ := List.mem_flatMap.mp hf
  obtain ⟨mop, hmop, hsome⟩ := List.mem_filterMap.mp hf2
  by_cases hm : httpMethods.contains mop.1
  · rw [if_pos hm] at hsome
    have hfe : f = convertOperation pp.1 mop.1 mop.2 := (Option.some.inj hsome).symm
    subst hfe
    have hparams : (convertOperation pp.1 mop.1 mop.2).parameters =
        operationParams mop.2 := rfl
    rw [hparams]
    exact operationParams_required_sub mop.2 (hwf pp hpp mop hmop)
  · rw [if_neg hm] at hsome
    exact absurd hsome (by simp)

theorem mem_keys_ite_insert {α : Type} (c : Prop) [Decidable c]
    (d : List (String × α)) (k : String) (v : α) (x : String)
    (hx : x ∈ d.map Prod.fst) :
    x ∈ (if c then dictInsert d k v else d).map Prod.fst := by
  by_cases hc : c
  · rw [if_pos hc]
    exact mem_keys_dictInsert d k v x (Or.inl hx)
  · rw [if_neg hc]
    exact hx

theorem rest_required_sub (docs : RestDocsDoc) :
    ∀ f ∈ rest_convert docs, ∀ r ∈ f.parameters.required,
      r ∈ f.parameters.properties.map Prod.fst := by
  intro f hf r hr
  obtain ⟨e, he, rfl⟩ := List.mem_map.mp hf
  obtain ⟨p, hp, rfl⟩ := List.mem_map.mp hr
  have hpmem : p ∈ e.parameters := List.mem_of_mem_filter hp
  exact mem_keys_foldInsert EndpointParamDoc.name restParamDef e.parameters [] _
    (Or.inr (List.mem_map.mpr ⟨p, hpmem, rfl⟩))

theorem image_required_sub (docs : RestDocsDoc) :
    ∀ f ∈ convert_image_api docs, ∀ r ∈ f.parameters.required,
      r ∈ f.parameters.properties.map Prod.fst := by
  intro f hf r hr
  obtain ⟨e, he, rfl⟩ := List.mem_map.mp hf
  obtain ⟨p, hp, rfl⟩ := List.mem_map.mp hr
  have hpmem : p ∈ e.parameters := List.mem_of_mem_filter hp
  have h0 : p.name ∈ (e.parameters.foldl
      (fun acc q => dictInsert acc q.name (imageParamDef q)) []).map Prod.fst :=
    mem_keys_foldInsert EndpointParamDoc.name imageParamDef e.parameters [] _
      (Or.inr (List.mem_map.mpr ⟨p, hpmem, rfl⟩))
  exact mem_keys_ite_insert _ _ "image_processing_options"
    imageProcessingOptions p.name h0

/-- Claim C3 (amended): for every structured-document input whose
request-body schemas are themselves well-formed (each `required` name is
among the schema's declared property names — the invariant OpenAPI
imposes on the *input*), and for every flat-endpoint or image-endpoint
input unconditionally, every `FunctionSchema` produced by normalization
satisfies: every name in its `required` list is a key of its
`properties` map.  The structured-document converter copies a body
schema's `required` list through verbatim, so an ill-formed input breaks
the invariant there (see the counterexample). -/
theorem claim3_required_subset :
    (∀ spec : OASpecDoc,
      (∀ pp ∈ spec.paths, ∀ mop ∈ pp.2,
        schemaRequiredOkB (mop.2).requestBody = true) →
      ∀ f ∈ convert_openapi_to_gemma spec, ∀ r ∈ f.parameters.required,
        r ∈ f.parameters.properties.map Prod.fst) ∧
    (∀ docs : RestDocsDoc, ∀ f ∈ rest_convert docs,
      ∀ r ∈ f.parameters.required,
        r ∈ f.parameters.properties.map Prod.fst) ∧
    (∀ docs : RestDocsDoc, ∀ f ∈ convert_image_api docs,
      ∀ r ∈ f.parameters.required,
        r ∈ f.parameters.properties.map Prod.fst) :=
  ⟨openapi_required_sub, rest_required_sub, image_required_sub⟩

/-- Witness for C3: a well-formed structured document with both a
required query parameter and a required body property, the spec's own
flat-endpoint example, and an image endpoint with a required image
parameter and processing options. -/
theorem claim3_witness :
    (∀ pp ∈ cSpecGood.paths, ∀ mop ∈ pp.2,
      schemaRequiredOkB (mop.2).requestBody = true) ∧
    (∀ f ∈ convert_openapi_to_gemma cSpecGood, ∀ r ∈ f.parameters.required,
      r ∈ f.parameters.properties.map Prod.fst) ∧
    (cFlatOut ∈ rest_convert cFlatDocs ∧
     "location" ∈ cFlatOut.parameters.required ∧
     "location" ∈ cFlatOut.parameters.properties.map Prod.fst) ∧
    (cImageOut ∈ convert_image_api cImageDocs ∧
     "image" ∈ cImageOut.parameters.required ∧
     "image" ∈ cImageOut.parameters.properties.map Prod.fst) := by
  have hflat : cFlatOut ∈ rest_convert cFlatDocs := by
    rw [show rest_convert cFlatDocs = [cFlatOut] from rfl]
    exact List.mem_singleton.mpr rfl
  have himg : cImageOut ∈ convert_image_api cImageDocs := by
    rw [show convert_image_api cImageDocs = [cImageOut] from rfl]
    exact List.mem_singleton.mpr rfl
  refine ⟨by decide, claim3_required_subset.1 cSpecGood (by decide),
    ⟨hflat, by decide, ?_⟩, ⟨himg, by decide, ?_⟩⟩
  · exact claim3_required_subset.2.1 cFlatDocs cFlatOut hflat "location" (by decide)
  · exact claim3_required_subset.2.2 cImageDocs cImageOut himg "image" (by decide)

/-- Counterexample to C3 as stated (over *every* input document): a body
schema requiring a name it never declares converts to a schema whose
`required` list escapes its `properties` keys. -/
theorem claim3_counterexample :
    ¬ (∀ f ∈ convert_openapi_to_gemma cSpecBad, ∀ r ∈ f.parameters.required,
        r ∈ f.parameters.properties.map Prod.fst) := by
  decide
